import Mathlib

/-!
Shallow embedding of the websockets hub plugin
(`plugins/websockets/plugin.go` of `roadrunner`): the publish gateway
(`Publish` / `PublishAsync`), the HTTP middleware control flow
(`Middleware`), shutdown (`Stop`) and the broker receive loops (`Serve`).
Errors are modelled as `String`, brokers as records holding their publish
behaviour, and the side effects of each operation as explicit event traces.
-/

/-- A pubsub message: broker key, topic list and payload
(`pubsub.Message` fields `Broker`, `Topics`, `Payload`). -/
structure Message where
  broker : String
  topics : List String
  payload : String
deriving DecidableEq, Repr

/-- A registered broker (`pubsub.PubSub`): its `Publish` accepts the whole
batch slice and yields `none` on success or `some err` on failure. -/
structure PubSub where
  publish : List Message → Option String

/-- The hub's broker map `p.pubsubs`, keyed by broker name. -/
abbrev PubSubs := List (String × PubSub)

/-- Map lookup `p.pubsubs[key]` in its guarded form: `some br` with the
`ok` flag true, `none` when the key is absent. -/
def lookupBroker (ps : PubSubs) (k : String) : Option PubSub :=
  (ps.find? (fun p => p.1 == k)).map Prod.snd

/-- Observable events of the synchronous publish path: an actual broker
`Publish` invocation (recording which batch slice was passed), or the
`no such broker` warning log. -/
inductive PubEvent where
  | publishCall (broker : String) (batch : List Message)
  | warnNoBroker (broker : String)
deriving DecidableEq, Repr

/-- Inner `j` loop of `Plugin.Publish` over the topics of one message:
each iteration re-reads the broker map; a registered broker gets
`br.Publish(msg)` with the whole batch, an error aborts, an unregistered
broker logs a warning and the loop continues. -/
def publishInner (ps : PubSubs) (batch : List Message) (m : Message) :
    List String → List PubEvent × Option String
  | [] => ([], none)
  | _ :: ts =>
    match lookupBroker ps m.broker with
    | some br =>
      match br.publish batch with
      | some e => ([PubEvent.publishCall m.broker batch], some e)
      | none =>
        let r := publishInner ps batch m ts
        (PubEvent.publishCall m.broker batch :: r.1, r.2)
    | none =>
      let r := publishInner ps batch m ts
      (PubEvent.warnNoBroker m.broker :: r.1, r.2)

/-- Outer `i` loop of `Plugin.Publish` over the batch: the first error
returned by a broker publish is returned to the caller at once. -/
def publishLoop (ps : PubSubs) (batch : List Message) :
    List Message → List PubEvent × Option String
  | [] => ([], none)
  | m :: ms =>
    let r := publishInner ps batch m m.topics
    match r.2 with
    | some e => (r.1, some e)
    | none =>
      let r2 := publishLoop ps batch ms
      (r.1 ++ r2.1, r2.2)

/-- `Plugin.Publish`: synchronous publish gateway; returns the event trace
together with the caller-visible result (`none` = nil error). -/
def Publish (ps : PubSubs) (batch : List Message) :
    List PubEvent × Option String :=
  publishLoop ps batch batch

/-- Outcome of the background goroutine spawned by `Plugin.PublishAsync`:
it finishes, logs the first broker error and stops, or panics on a nil
broker handle (unguarded map lookup). -/
inductive AsyncOutcome where
  | ok
  | logged (e : String)
  | crash
deriving DecidableEq, Repr

/-- Inner `j` loop of the `PublishAsync` goroutine: the map access
`p.pubsubs[msg[i].Broker]` is unguarded, so an absent key yields a nil
interface and the `Publish` call on it panics. `none` means the topic loop
finished and the outer loop continues. -/
def asyncInner (ps : PubSubs) (batch : List Message) (m : Message) :
    List String → Option AsyncOutcome
  | [] => none
  | _ :: ts =>
    match lookupBroker ps m.broker with
    | none => some AsyncOutcome.crash
    | some br =>
      match br.publish batch with
      | some e => some (AsyncOutcome.logged e)
      | none => asyncInner ps batch m ts

/-- Outer `i` loop of the `PublishAsync` goroutine. -/
def asyncLoop (ps : PubSubs) (batch : List Message) :
    List Message → AsyncOutcome
  | [] => AsyncOutcome.ok
  | m :: ms =>
    match asyncInner ps batch m m.topics with
    | some o => o
    | none => asyncLoop ps batch ms

/-- Delivery outcome of the goroutine launched by `Plugin.PublishAsync`. -/
def publishAsyncDelivery (ps : PubSubs) (batch : List Message) :
    AsyncOutcome :=
  asyncLoop ps batch batch

/-- `Plugin.PublishAsync` as seen by its caller: the function spawns a
goroutine and returns nothing — no value, no error. -/
def PublishAsync (_ps : PubSubs) (_batch : List Message) : Unit := ()

/-- Result of one broker-map read for a message of a batch: `none` when the
broker key is unregistered, otherwise `some` of what that broker's publish
returns on the batch. -/
def brokerPublishResult (ps : PubSubs) (batch : List Message) (m : Message) :
    Option (Option String) :=
  (lookupBroker ps m.broker).map (fun br => br.publish batch)

/-- The error a batch entry contributes in the synchronous loop: `some e`
exactly when its broker is registered and errors; an unregistered broker
contributes no error (it only warns). -/
def entryErr (ps : PubSubs) (batch : List Message) (m : Message) :
    Option String :=
  (brokerPublishResult ps batch m).getD none

/-- The event one iteration of the inner loop emits for a non-erroring
entry: a publish call when the broker is registered, a warning otherwise. -/
def entryEvent (ps : PubSubs) (batch : List Message) (m : Message) :
    PubEvent :=
  match lookupBroker ps m.broker with
  | some _ => PubEvent.publishCall m.broker batch
  | none => PubEvent.warnNoBroker m.broker

/-- Full inner-loop trace of a non-erroring entry: one event per topic. -/
def entryTrace (ps : PubSubs) (batch : List Message) (m : Message) :
    List PubEvent :=
  m.topics.map (fun _ => entryEvent ps batch m)

/-- A registered connection as the shutdown path sees it: whether the
underlying transport has been closed. -/
structure Conn where
  closed : Bool
deriving DecidableEq, Repr

/-- The plugin state touched by `Plugin.Stop`: the `stopped` uint64
counter, the worker pool, and the `p.connections` registry. -/
structure PluginState where
  stopped : Nat
  poolStopped : Bool
  connections : List (String × Conn)
deriving DecidableEq, Repr

/-- `Plugin.Stop`: `atomic.AddUint64(&p.stopped, 1)` (uint64 wrap-around
made explicit), then `p.workersPool.Stop()`, then `return nil`. Nothing
else is touched. -/
def Stop (s : PluginState) : PluginState × Option String :=
  ({ s with
      stopped := (s.stopped + 1) % 2 ^ 64
      poolStopped := true }, none)

/-- `s` after `k` successive `Plugin.Stop` calls. -/
def stopsFrom : Nat → PluginState → PluginState
  | 0, s => s
  | k + 1, s => stopsFrom k (Stop s).1

/-- Result of `validator.NewValidator().AssertServerAccess`: nil error,
an `*validator.AccessValidator` error carrying the response to copy to
the client, or any other error. -/
inductive ValidatorResult where
  | ok
  | accessDenied (resp : String)
  | otherErr (e : String)
deriving DecidableEq, Repr

/-- Observable events of one `Plugin.Middleware` request, in program
order. -/
inductive MwEvent where
  | passThrough
  | stoppedReject
  | writeAccessErr (resp : String)
  | write400
  | upgradeFail (e : String)
  | upgrade
  | register (id : String)
  | commandLoop
  | logCmdErr (e : String)
  | cleanUp
  | deregister (id : String)
  | closeConn
deriving DecidableEq, Repr

/-- The environment of one middleware request: the request path, the
configured path, the current `stopped` counter, what the access validator
returns, whether the websocket upgrade succeeds, the generated connection
id, and how `e.StartCommandLoop()` exits (`none` = normal return,
`some e` = error). -/
structure MwInput where
  path : String
  configPath : String
  stopped : Nat
  validator : ValidatorResult
  upgradeErr : Option String
  connID : String
  cmdLoopErr : Option String
deriving DecidableEq, Repr

/-- `atomic.CompareAndSwapUint64(&p.stopped, 1, 1)`: true exactly when the
counter equals 1 (the value is left unchanged). -/
def stoppedGate (stopped : Nat) : Bool := stopped == 1

/-- `Plugin.Middleware` from the upgrade on: upgrade failure writes an
HTTP 500 and returns before any deferred cleanup is registered; on
success the handler registers the connection, runs the command loop and,
on any exit, runs the deferred calls in LIFO order —
`e.CleanUp()`, `p.connections.Delete`, `safeConn.Close()`. -/
def mwAfterValidation (inp : MwInput) (pre : List MwEvent) : List MwEvent :=
  match inp.upgradeErr with
  | some e => pre ++ [MwEvent.upgradeFail e]
  | none =>
    pre ++ [MwEvent.upgrade, MwEvent.register inp.connID, MwEvent.commandLoop] ++
      (match inp.cmdLoopErr with
       | some e => [MwEvent.logCmdErr e]
       | none => []) ++
      [MwEvent.cleanUp, MwEvent.deregister inp.connID, MwEvent.closeConn]

/-- `Plugin.Middleware`: a request off the configured path passes through;
the stopped gate rejects when the counter equals exactly 1; a
non-AccessValidator validation error writes HTTP 400 and returns; an
`*validator.AccessValidator` error is copied to the client and — with no
`return` in that branch — the handler falls through to the upgrade just as
in the nil-error case. -/
def Middleware (inp : MwInput) : List MwEvent :=
  if inp.path != inp.configPath then [MwEvent.passThrough]
  else if stoppedGate inp.stopped then [MwEvent.stoppedReject]
  else
    match inp.validator with
    | ValidatorResult.otherErr _ => [MwEvent.write400]
    | ValidatorResult.ok => mwAfterValidation inp []
    | ValidatorResult.accessDenied resp =>
        mwAfterValidation inp [MwEvent.writeAccessErr resp]

/-- One broker receive goroutine of `Plugin.Serve`, run over the stream
of results its `Next()` produces: successful messages are queued to the
worker pool; the first error is sent to the serve error channel and the
goroutine returns. Returns the queued data and the pushed error. -/
def receiveLoop : List (Except String String) → List String × Option String
  | [] => ([], none)
  | Except.ok d :: rest =>
    let r := receiveLoop rest
    (d :: r.1, r.2)
  | Except.error e :: _ => ([], some e)

/-- One registered broker together with the stream of `Next()` results it
will produce. -/
structure BrokerRun where
  name : String
  stream : List (Except String String)
deriving Repr

/-- `Plugin.Serve`: one receive goroutine per registered broker. -/
def Serve (brokers : List BrokerRun) : List (List String × Option String) :=
  brokers.map (fun b => receiveLoop b.stream)

/-- Contents of the single `errCh` returned by `Plugin.Serve`: every
broker goroutine pushes its terminal error into this one channel. -/
def serveErrCh (brokers : List BrokerRun) : List String :=
  (Serve brokers).filterMap Prod.snd

/-! Concrete brokers, batches and states used in examples, witnesses and
counterexamples. -/

def brOkS : PubSub := ⟨fun _ => none⟩

def brErrS : PubSub := ⟨fun _ => some "boom"⟩

def psOk : PubSubs := [("a", brOkS)]

def psMix : PubSubs := [("a", brErrS), ("b", brOkS)]

def mA2 : Message := ⟨"a", ["t1", "t2"], "p"⟩

def mA1 : Message := ⟨"a", ["t"], "p"⟩

def mB1 : Message := ⟨"b", ["t"], "p"⟩

def mU1 : Message := ⟨"zzz", ["t"], "p"⟩

def s0 : PluginState := ⟨0, false, [("id1", ⟨false⟩)]⟩

def deniedReq : MwInput :=
  ⟨"/ws", "/ws", 0, ValidatorResult.accessDenied "denied", none, "id1", none⟩

def okReq : MwInput :=
  ⟨"/ws", "/ws", 0, ValidatorResult.ok, none, "id1", none⟩

def gateReq : MwInput :=
  ⟨"/ws", "/ws", 1, ValidatorResult.ok, none, "id1", none⟩

def bRun : BrokerRun :=
  ⟨"events", [Except.ok "d1", Except.error "boom", Except.ok "late"]⟩

section sanity

example :
    Publish [("a", brOkS)] [⟨"a", ["t1", "t2"], "p"⟩] =
      ([PubEvent.publishCall "a" [⟨"a", ["t1", "t2"], "p"⟩],
        PubEvent.publishCall "a" [⟨"a", ["t1", "t2"], "p"⟩]], none) := by
  decide

example :
    Publish [("a", brOkS)] [⟨"b", ["t1"], "p"⟩] =
      ([PubEvent.warnNoBroker "b"], none) := by
  decide

example :
    (Publish [("a", brErrS)] [⟨"a", ["t1", "t2"], "p"⟩]).2 = some "boom" := by
  decide

example :
    publishAsyncDelivery [("a", brOkS)] [⟨"b", ["t1"], "p"⟩] =
      AsyncOutcome.crash := by
  decide

example :
    publishAsyncDelivery [("a", brErrS)] [⟨"a", ["t"], "p"⟩] =
      AsyncOutcome.logged "boom" := by
  decide

end sanity

/-! Helper lemmas about the publish loops. -/

theorem publishInner_ok (ps : PubSubs) (batch : List Message) (m : Message)
    (h : entryErr ps batch m = none) :
    ∀ ts, publishInner ps batch m ts =
      (ts.map (fun _ => entryEvent ps batch m), none) := by
  intro ts
  induction ts with
  | nil => rfl
  | cons t ts ih =>
    cases hl : lookupBroker ps m.broker with
    | none =>
      simp [publishInner, hl, ih, entryEvent]
    | some br =>
      have hp : br.publish batch = none := by
        unfold entryErr brokerPublishResult at h
        rw [hl] at h
        simpa using h
      simp [publishInner, hl, hp, ih, entryEvent]

theorem publishInner_err (ps : PubSubs) (batch : List Message) (m : Message)
    (e : String) (h : brokerPublishResult ps batch m = some (some e)) :
    ∀ t ts, publishInner ps batch m (t :: ts) =
      ([PubEvent.publishCall m.broker batch], some e) := by
  intro t ts
  unfold brokerPublishResult at h
  cases hl : lookupBroker ps m.broker with
  | none => rw [hl] at h; simp at h
  | some br =>
    rw [hl] at h
    simp at h
    simp [publishInner, hl, h]

theorem publishLoop_append_ok (ps : PubSubs) (batch : List Message) :
    ∀ l1 l2, (∀ m' ∈ l1, entryErr ps batch m' = none) →
    publishLoop ps batch (l1 ++ l2) =
      (l1.flatMap (entryTrace ps batch) ++ (publishLoop ps batch l2).1,
       (publishLoop ps batch l2).2) := by
  intro l1
  induction l1 with
  | nil => intro l2 _; simp
  | cons m ms ih =>
    intro l2 h
    have hm : entryErr ps batch m = none := h m (by simp)
    have hms : ∀ m' ∈ ms, entryErr ps batch m' = none :=
      fun m' hm' => h m' (by simp [hm'])
    show publishLoop ps batch (m :: (ms ++ l2)) = _
    simp only [publishLoop, publishInner_ok ps batch m hm, ih l2 hms]
    simp [entryTrace, List.append_assoc]

theorem asyncInner_ok (ps : PubSubs) (batch : List Message) (m : Message)
    (h : brokerPublishResult ps batch m = some none) :
    ∀ ts, asyncInner ps batch m ts = none := by
  intro ts
  unfold brokerPublishResult at h
  induction ts with
  | nil => rfl
  | cons t ts ih =>
    cases hl : lookupBroker ps m.broker with
    | none => rw [hl] at h; simp at h
    | some br =>
      rw [hl] at h
      simp at h
      simp [asyncInner, hl, h, ih]

theorem asyncInner_err (ps : PubSubs) (batch : List Message) (m : Message)
    (e : String) (h : brokerPublishResult ps batch m = some (some e)) :
    ∀ t ts, asyncInner ps batch m (t :: ts) = some (AsyncOutcome.logged e) := by
  intro t ts
  unfold brokerPublishResult at h
  cases hl : lookupBroker ps m.broker with
  | none => rw [hl] at h; simp at h
  | some br =>
    rw [hl] at h
    simp at h
    simp [asyncInner, hl, h]

theorem asyncInner_missing (ps : PubSubs) (batch : List Message) (m : Message)
    (h : lookupBroker ps m.broker = none) :
    ∀ t ts, asyncInner ps batch m (t :: ts) = some AsyncOutcome.crash := by
  intro t ts
  simp [asyncInner, h]

theorem asyncLoop_append_ok (ps : PubSubs) (batch : List Message) :
    ∀ l1 l2, (∀ m' ∈ l1, brokerPublishResult ps batch m' = some none) →
    asyncLoop ps batch (l1 ++ l2) = asyncLoop ps batch l2 := by
  intro l1
  induction l1 with
  | nil => intro l2 _; simp
  | cons m ms ih =>
    intro l2 h
    have hm := h m (by simp)
    have hms : ∀ m' ∈ ms, brokerPublishResult ps batch m' = some none :=
      fun m' hm' => h m' (by simp [hm'])
    show asyncLoop ps batch (m :: (ms ++ l2)) = _
    simp [asyncLoop, asyncInner_ok ps batch m hm m.topics, ih l2 hms]

theorem publishInner_events (ps : PubSubs) (batch : List Message)
    (m : Message) :
    ∀ ts ev, ev ∈ (publishInner ps batch m ts).1 →
      (ev = PubEvent.publishCall m.broker batch ∧
        (lookupBroker ps m.broker).isSome = true) ∨
      ev = PubEvent.warnNoBroker m.broker := by
  intro ts
  induction ts with
  | nil => intro ev hev; simp [publishInner] at hev
  | cons t ts ih =>
    intro ev hev
    cases hl : lookupBroker ps m.broker with
    | none =>
      simp only [publishInner, hl] at hev
      simp at hev
      rcases hev with hev | hev
      · right; exact hev
      · rcases ih ev hev with ⟨h1, h2⟩ | h1
        · rw [hl] at h2; simp at h2
        · right; exact h1
    | some br =>
      cases hp : br.publish batch with
      | some e =>
        simp only [publishInner, hl, hp] at hev
        simp at hev
        left; exact ⟨hev, by simp⟩
      | none =>
        simp only [publishInner, hl, hp] at hev
        simp at hev
        rcases hev with hev | hev
        · left; exact ⟨hev, by simp⟩
        · rcases ih ev hev with ⟨h1, _⟩ | h1
          · left; exact ⟨h1, by simp⟩
          · right; exact h1

theorem publishLoop_events (ps : PubSubs) (batch : List Message) :
    ∀ l ev, ev ∈ (publishLoop ps batch l).1 →
      ∃ m' ∈ l, ev ∈ (publishInner ps batch m' m'.topics).1 := by
  intro l
  induction l with
  | nil => intro ev hev; simp [publishLoop] at hev
  | cons m ms ih =>
    intro ev hev
    rw [publishLoop] at hev
    cases hr : (publishInner ps batch m m.topics).2 with
    | some e =>
      rw [hr] at hev
      simp at hev
      exact ⟨m, by simp, hev⟩
    | none =>
      rw [hr] at hev
      simp at hev
      rcases hev with hev | hev
      · exact ⟨m, by simp, hev⟩
      · obtain ⟨m', hm', hev'⟩ := ih ev hev
        exact ⟨m', by simp [hm'], hev'⟩

theorem syncAsync_agree (ps : PubSubs) (batch : List Message) :
    ∀ l, (∀ m' ∈ l, (lookupBroker ps m'.broker).isSome = true) →
      (asyncLoop ps batch l = AsyncOutcome.ok ∧
        (publishLoop ps batch l).2 = none) ∨
      (∃ e, asyncLoop ps batch l = AsyncOutcome.logged e ∧
        (publishLoop ps batch l).2 = some e) := by
  intro l
  induction l with
  | nil => intro _; left; exact ⟨rfl, rfl⟩
  | cons m ms ih =>
    intro h
    obtain ⟨br, hl⟩ := Option.isSome_iff_exists.mp (h m (by simp))
    have hms : ∀ m' ∈ ms, (lookupBroker ps m'.broker).isSome = true :=
      fun m' hm' => h m' (by simp [hm'])
    have hbr : brokerPublishResult ps batch m =
        some (br.publish batch) := by
      simp [brokerPublishResult, hl]
    cases hp : br.publish batch with
    | none =>
      have hok : brokerPublishResult ps batch m = some none := by
        rw [hbr, hp]
      have herr : entryErr ps batch m = none := by
        simp [entryErr, hok]
      rcases ih hms with ⟨ha, hs⟩ | ⟨e, ha, hs⟩
      · left
        constructor
        · simp [asyncLoop, asyncInner_ok ps batch m hok m.topics, ha]
        · simp [publishLoop, publishInner_ok ps batch m herr, hs]
      · right
        refine ⟨e, ?_, ?_⟩
        · simp [asyncLoop, asyncInner_ok ps batch m hok m.topics, ha]
        · simp [publishLoop, publishInner_ok ps batch m herr, hs]
    | some e =>
      have herr : brokerPublishResult ps batch m = some (some e) := by
        rw [hbr, hp]
      cases hts : m.topics with
      | nil =>
        rcases ih hms with ⟨ha, hs⟩ | ⟨e', ha, hs⟩
        · left
          constructor
          · simp [asyncLoop, hts, asyncInner, ha]
          · simp [publishLoop, hts, publishInner, hs]
        · right
          refine ⟨e', ?_, ?_⟩
          · simp [asyncLoop, hts, asyncInner, ha]
          · simp [publishLoop, hts, publishInner, hs]
      | cons t ts =>
        right
        refine ⟨e, ?_, ?_⟩
        · simp [asyncLoop, hts, asyncInner_err ps batch m e herr]
        · simp [publishLoop, hts, publishInner_err ps batch m e herr]

theorem stopsFrom_stopped :
    ∀ (k : Nat) (s : PluginState), s.stopped < 2 ^ 64 →
      (stopsFrom k s).stopped = (s.stopped + k) % 2 ^ 64 := by
  intro k
  induction k with
  | zero =>
    intro s h
    show s.stopped = (s.stopped + 0) % 2 ^ 64
    rw [Nat.add_zero, Nat.mod_eq_of_lt h]
  | succ k ih =>
    intro s h
    show (stopsFrom k (Stop s).1).stopped = _
    rw [ih _ (by exact Nat.mod_lt _ (by norm_num))]
    show ((s.stopped + 1) % 2 ^ 64 + k) % 2 ^ 64 = _
    rw [Nat.mod_add_mod]
    congr 1
    omega

theorem middleware_reject_iff (inp : MwInput)
    (hpath : inp.path = inp.configPath) :
    Middleware inp = [MwEvent.stoppedReject] ↔
      stoppedGate inp.stopped = true := by
  constructor
  · intro h
    by_contra hg
    have hg' : stoppedGate inp.stopped = false := by
      cases hgv : stoppedGate inp.stopped
      · rfl
      · exact absurd hgv hg
    cases hv : inp.validator <;> cases hu : inp.upgradeErr <;>
      cases hc : inp.cmdLoopErr <;>
      simp [Middleware, mwAfterValidation, hpath, hg', hv, hu, hc] at h
  · intro h
    simp [Middleware, hpath, h]

/-- Generic helper: flatMap respects pointwise equality on members. -/
theorem flatMap_congr_on {α β : Type} (l : List α) (f g : α → List β)
    (h : ∀ a ∈ l, f a = g a) : l.flatMap f = l.flatMap g := by
  induction l with
  | nil => rfl
  | cons a as ih =>
    simp only [List.flatMap_cons, h a (by simp),
      ih (fun a' ha' => h a' (by simp [ha']))]

/-- Claim C1 (evidence of the code bug): on a request on the configured
path whose access check returns an `AccessValidator` denial, the
middleware writes the error response to the client and then — the denial
branch lacking a `return` — still upgrades the transport, registers the
connection and starts the command loop, instead of refusing the
connection as the claim states. -/
theorem middleware_access_denied_still_serves :
    Middleware deniedReq =
      [MwEvent.writeAccessErr "denied", MwEvent.upgrade,
        MwEvent.register "id1", MwEvent.commandLoop, MwEvent.cleanUp,
        MwEvent.deregister "id1", MwEvent.closeConn] ∧
    MwEvent.upgrade ∈ Middleware deniedReq ∧
    MwEvent.register "id1" ∈ Middleware deniedReq ∧
    MwEvent.commandLoop ∈ Middleware deniedReq := by
  refine ⟨rfl, ?_, ?_, ?_⟩ <;> decide

/-- Claim C2 counterexample: a batch whose only message names the
unregistered broker key `b` makes the synchronous `Publish` log a
warning and return success (`none`) — not an error, contrary to the
claim. -/
theorem publish_unknown_broker_no_error_cex :
    lookupBroker psOk mB1.broker = none ∧
    Publish psOk [mB1] = ([PubEvent.warnNoBroker "b"], none) :=
  ⟨rfl, by decide⟩

/-- Claim C2 (amended): for every batch containing a message whose broker
key is not registered, `Publish` performs no delivery attempt for that
entry (no broker-publish call carrying that broker key occurs), logs a
warning instead, and — when no registered broker's publish errors —
returns success rather than an error. -/
theorem publish_unknown_broker_skips_and_succeeds
    (ps : PubSubs) (batch : List Message) (m : Message)
    (_hm : m ∈ batch) (hu : lookupBroker ps m.broker = none) :
    PubEvent.publishCall m.broker batch ∉ (Publish ps batch).1 ∧
    ((∀ m' ∈ batch, entryErr ps batch m' = none) →
      (Publish ps batch).2 = none) := by
  constructor
  · intro hmem
    obtain ⟨m', hm', hev⟩ := publishLoop_events ps batch batch _ hmem
    rcases publishInner_events ps batch m' m'.topics _ hev with ⟨h1, h2⟩ | h1
    · have hbr : m.broker = m'.broker := by
        injection h1 with hb _
      rw [← hbr] at h2
      rw [hu] at h2
      simp at h2
    · simp at h1
  · intro hok
    have h := publishLoop_append_ok ps batch batch [] hok
    rw [List.append_nil] at h
    show (publishLoop ps batch batch).2 = none
    rw [h]
    rfl

/-- Claim C3 counterexample: a state holding one registered, open
connection: after `Stop` the connection is still registered and still
open — `Stop` does not forcibly close connections in the registry. -/
theorem stop_leaves_connections_open_cex :
    s0.connections = [("id1", Conn.mk false)] ∧
    (Stop s0).1.connections = [("id1", Conn.mk false)] ∧
    ((Stop s0).1.connections.map (fun c => c.2.closed)) = [false] := by
  decide

/-- Claim C3 (amended): `Stop` increments the shared stopped counter,
stops the worker pool and returns nil; it leaves the connection registry
untouched — no registered connection is closed by `Stop` itself. -/
theorem stop_increments_counter_stops_pool_only (s : PluginState) :
    (Stop s).1.stopped = (s.stopped + 1) % 2 ^ 64 ∧
    (Stop s).1.poolStopped = true ∧
    (Stop s).1.connections = s.connections ∧
    (Stop s).2 = none :=
  ⟨rfl, rfl, rfl, rfl⟩

/-- Claim C4: on a non-empty batch in which every message's broker key is
registered and no broker publish fails, `Publish` performs one broker
publish call per (message, topic) pair, each call passing the entire
batch slice, and returns success. -/
theorem publish_calls_once_per_message_topic_pair
    (ps : PubSubs) (batch : List Message)
    (_hne : batch ≠ [])
    (hall : ∀ m ∈ batch, brokerPublishResult ps batch m = some none) :
    Publish ps batch =
      (batch.flatMap
        (fun m => m.topics.map
          (fun _ => PubEvent.publishCall m.broker batch)), none) := by
  have hok : ∀ m ∈ batch, entryErr ps batch m = none := by
    intro m hm; simp [entryErr, hall m hm]
  have h := publishLoop_append_ok ps batch batch [] hok
  rw [List.append_nil] at h
  show publishLoop ps batch batch = _
  rw [h]
  simp only [publishLoop, List.append_nil]
  congr 1
  apply flatMap_congr_on
  intro m hm
  have : (lookupBroker ps m.broker).isSome = true := by
    have := hall m hm
    unfold brokerPublishResult at this
    cases hl : lookupBroker ps m.broker
    · rw [hl] at this; simp at this
    · simp
  obtain ⟨br, hl⟩ := Option.isSome_iff_exists.mp this
  simp [entryTrace, entryEvent, hl]

/-- Witness for C4 at a concrete input: one message, two topics, one
registered broker that accepts — two publish calls, each with the whole
batch, and a nil result. -/
theorem publish_calls_once_per_message_topic_pair_witness :
    (([mA2] : List Message) ≠ [] ∧
      ∀ m ∈ [mA2], brokerPublishResult psOk [mA2] m = some none) ∧
    Publish psOk [mA2] =
      ([mA2].flatMap
        (fun m => m.topics.map
          (fun _ => PubEvent.publishCall m.broker [mA2])), none) :=
  ⟨⟨by decide, by decide⟩,
    publish_calls_once_per_message_topic_pair psOk [mA2] (by decide)
      (by decide)⟩

/-- Witness for the amended C2 at a concrete input: the unknown-broker
entry gets no publish call and the call returns success. -/
theorem publish_unknown_broker_skips_and_succeeds_witness :
    (mB1 ∈ [mB1] ∧ lookupBroker psOk mB1.broker = none) ∧
    (PubEvent.publishCall mB1.broker [mB1] ∉ (Publish psOk [mB1]).1 ∧
      ((∀ m' ∈ [mB1], entryErr psOk [mB1] m' = none) →
        (Publish psOk [mB1]).2 = none)) :=
  ⟨⟨by decide, rfl⟩,
    publish_unknown_broker_skips_and_succeeds psOk [mB1] mB1 (by decide) rfl⟩

/-- Claim C5: the synchronous `Publish` stops at the first broker publish
that errors and returns that error, performing no further broker-publish
calls for the remaining (message, topic) pairs; and when no broker
publish errors it returns success. -/
theorem publish_first_error_aborts :
    (∀ (ps : PubSubs) (pre : List Message) (m : Message)
        (post : List Message) (e : String),
      (∀ m' ∈ pre, entryErr ps (pre ++ m :: post) m' = none) →
      brokerPublishResult ps (pre ++ m :: post) m = some (some e) →
      m.topics ≠ [] →
      Publish ps (pre ++ m :: post) =
        (pre.flatMap (entryTrace ps (pre ++ m :: post)) ++
          [PubEvent.publishCall m.broker (pre ++ m :: post)], some e)) ∧
    (∀ (ps : PubSubs) (batch : List Message),
      (∀ m' ∈ batch, entryErr ps batch m' = none) →
      (Publish ps batch).2 = none) := by
  constructor
  · intro ps pre m post e hpre herr htop
    obtain ⟨t, ts, hts⟩ : ∃ t ts, m.topics = t :: ts := by
      cases hmt : m.topics with
      | nil => exact absurd hmt htop
      | cons t ts => exact ⟨t, ts, rfl⟩
    have h := publishLoop_append_ok ps (pre ++ m :: post) pre (m :: post) hpre
    show publishLoop ps (pre ++ m :: post) (pre ++ m :: post) = _
    rw [h]
    have hi := publishInner_err ps (pre ++ m :: post) m e herr t ts
    rw [← hts] at hi
    simp [publishLoop, hi]
  · intro ps batch hok
    have h := publishLoop_append_ok ps batch batch [] hok
    rw [List.append_nil] at h
    show (publishLoop ps batch batch).2 = none
    rw [h]
    rfl

/-- Witness for C5 at a concrete input: broker `b` accepts, broker `a`
errors with `boom` on the second batch entry; the call returns `boom` and
the trace stops at the erroring call. -/
theorem publish_first_error_aborts_witness :
    ((∀ m' ∈ [mB1], entryErr psMix ([mB1] ++ mA2 :: [mB1]) m' = none) ∧
      brokerPublishResult psMix ([mB1] ++ mA2 :: [mB1]) mA2 =
        some (some "boom") ∧
      mA2.topics ≠ []) ∧
    Publish psMix ([mB1] ++ mA2 :: [mB1]) =
      ([mB1].flatMap (entryTrace psMix ([mB1] ++ mA2 :: [mB1])) ++
        [PubEvent.publishCall mA2.broker ([mB1] ++ mA2 :: [mB1])],
       some "boom") :=
  ⟨⟨by decide, by decide, by decide⟩,
    publish_first_error_aborts.1 psMix [mB1] mA2 [mB1] "boom" (by decide)
      (by decide) (by decide)⟩

/-- Claim C6: `PublishAsync` returns no value and surfaces no error to
its caller; on a batch whose broker keys are all registered the delivery
goroutine never crashes, and it ends with a logged error exactly when the
synchronous `Publish` would have returned that same first error. -/
theorem publishAsync_errors_logged_not_returned
    (ps : PubSubs) (batch : List Message)
    (hreg : ∀ m ∈ batch, (lookupBroker ps m.broker).isSome = true) :
    PublishAsync ps batch = () ∧
    publishAsyncDelivery ps batch ≠ AsyncOutcome.crash ∧
    (∀ e, publishAsyncDelivery ps batch = AsyncOutcome.logged e ↔
      (Publish ps batch).2 = some e) := by
  rcases syncAsync_agree ps batch batch hreg with ⟨ha, hs⟩ | ⟨e, ha, hs⟩
  · refine ⟨rfl, ?_, ?_⟩
    · simp [publishAsyncDelivery, ha]
    · intro e'
      simp [publishAsyncDelivery, Publish, ha, hs]
  · refine ⟨rfl, ?_, ?_⟩
    · simp [publishAsyncDelivery, ha]
    · intro e'
      simp [publishAsyncDelivery, Publish, ha, hs]

/-- Witness for C6 at a concrete input: the single registered broker
errors with `boom`; the caller still gets nothing, and the delivery
goroutine logs exactly the error the synchronous path would return. -/
theorem publishAsync_errors_logged_not_returned_witness :
    (∀ m ∈ [mA1], (lookupBroker psMix m.broker).isSome = true) ∧
    (PublishAsync psMix [mA1] = () ∧
      publishAsyncDelivery psMix [mA1] ≠ AsyncOutcome.crash ∧
      (∀ e, publishAsyncDelivery psMix [mA1] = AsyncOutcome.logged e ↔
        (Publish psMix [mA1]).2 = some e)) :=
  ⟨by decide, publishAsync_errors_logged_not_returned psMix [mA1] (by decide)⟩

/-- Claim C7: the `PublishAsync` delivery goroutine performs its
broker-map lookup without an existence check: when the goroutine reaches
a message whose broker key is unregistered (earlier entries publish
cleanly) and that message lists a topic, the goroutine crashes on the nil
broker handle — whereas the synchronous `Publish` on the same batch takes
its guarded branch and logs a warning for that entry instead. -/
theorem publishAsync_unknown_broker_crashes
    (ps : PubSubs) (pre : List Message) (m : Message) (post : List Message)
    (hpre : ∀ m' ∈ pre,
      brokerPublishResult ps (pre ++ m :: post) m' = some none)
    (hu : lookupBroker ps m.broker = none)
    (ht : m.topics ≠ []) :
    publishAsyncDelivery ps (pre ++ m :: post) = AsyncOutcome.crash ∧
    PubEvent.warnNoBroker m.broker ∈ (Publish ps (pre ++ m :: post)).1 := by
  obtain ⟨t, ts, hts⟩ : ∃ t ts, m.topics = t :: ts := by
    cases hmt : m.topics with
    | nil => exact absurd hmt ht
    | cons t ts => exact ⟨t, ts, rfl⟩
  constructor
  · show asyncLoop ps (pre ++ m :: post) (pre ++ m :: post) = _
    rw [asyncLoop_append_ok ps (pre ++ m :: post) pre (m :: post) hpre]
    have hc := asyncInner_missing ps (pre ++ m :: post) m hu t ts
    rw [← hts] at hc
    simp [asyncLoop, hc]
  · have hok : ∀ m' ∈ pre, entryErr ps (pre ++ m :: post) m' = none := by
      intro m' hm'
      simp [entryErr, hpre m' hm']
    have h := publishLoop_append_ok ps (pre ++ m :: post) pre (m :: post) hok
    show PubEvent.warnNoBroker m.broker ∈
      (publishLoop ps (pre ++ m :: post) (pre ++ m :: post)).1
    rw [h]
    have herr : entryErr ps (pre ++ m :: post) m = none := by
      simp [entryErr, brokerPublishResult, hu]
    have hi := publishInner_ok ps (pre ++ m :: post) m herr m.topics
    rw [List.mem_append]
    right
    rw [hts] at hi
    simp [publishLoop, hts, hi, entryEvent, hu]

/-- Witness for C7 at a concrete input: entry for registered broker `a`
publishes cleanly, then the entry naming the unregistered broker `zzz`
makes the async goroutine crash while the sync path warns. -/
theorem publishAsync_unknown_broker_crashes_witness :
    ((∀ m' ∈ [mA1],
        brokerPublishResult psOk ([mA1] ++ mU1 :: []) m' = some none) ∧
      lookupBroker psOk mU1.broker = none ∧ mU1.topics ≠ []) ∧
    (publishAsyncDelivery psOk ([mA1] ++ mU1 :: []) = AsyncOutcome.crash ∧
      PubEvent.warnNoBroker mU1.broker ∈
        (Publish psOk ([mA1] ++ mU1 :: [])).1) :=
  ⟨⟨by decide, rfl, by decide⟩,
    publishAsync_unknown_broker_crashes psOk [mA1] mU1 [] (by decide) rfl
      (by decide)⟩

/-- Claim C8: on every exit path of a served connection — normal command
loop return or command loop error — the middleware handler runs the
deferred cleanup exactly once and in this order: executor `CleanUp`
(unsubscribe from every topic), delete from the connection registry,
close the transport. -/
theorem middleware_cleanup_once_in_order
    (inp : MwInput)
    (hpath : inp.path = inp.configPath)
    (hgate : stoppedGate inp.stopped = false)
    (hv : inp.validator = ValidatorResult.ok)
    (hup : inp.upgradeErr = none) :
    ∃ pre, Middleware inp =
        pre ++ [MwEvent.cleanUp, MwEvent.deregister inp.connID,
          MwEvent.closeConn] ∧
      MwEvent.cleanUp ∉ pre ∧ (∀ id, MwEvent.deregister id ∉ pre) ∧
      MwEvent.closeConn ∉ pre := by
  refine ⟨[MwEvent.upgrade, MwEvent.register inp.connID,
      MwEvent.commandLoop] ++
      (match inp.cmdLoopErr with
       | some e => [MwEvent.logCmdErr e]
       | none => []), ?_, ?_, ?_, ?_⟩ <;>
    cases hc : inp.cmdLoopErr <;>
      simp [Middleware, mwAfterValidation, hpath, hgate, hv, hup, hc]

/-- Witness for C8 at a concrete request that passes validation, upgrades
and exits the command loop normally. -/
theorem middleware_cleanup_once_in_order_witness :
    (okReq.path = okReq.configPath ∧ stoppedGate okReq.stopped = false ∧
      okReq.validator = ValidatorResult.ok ∧ okReq.upgradeErr = none) ∧
    (∃ pre, Middleware okReq =
        pre ++ [MwEvent.cleanUp, MwEvent.deregister okReq.connID,
          MwEvent.closeConn] ∧
      MwEvent.cleanUp ∉ pre ∧ (∀ id, MwEvent.deregister id ∉ pre) ∧
      MwEvent.closeConn ∉ pre) :=
  ⟨⟨rfl, rfl, rfl, rfl⟩,
    middleware_cleanup_once_in_order okReq rfl rfl rfl rfl⟩

/-- Claim C9: a broker receive loop of `Serve` queues each successfully
received message until its `Next` errors; at the first error it pushes
that error onto the hub's single serve error channel and exits — it
queues exactly the messages before the error, retries nothing, and the
error lands in the shared channel. -/
theorem serve_broker_error_pushed_and_loop_exits
    (brokers : List BrokerRun) (b : BrokerRun) (ds : List String)
    (e : String) (rest : List (Except String String))
    (hb : b ∈ brokers)
    (hs : b.stream = ds.map Except.ok ++ Except.error e :: rest) :
    receiveLoop b.stream = (ds, some e) ∧
    receiveLoop b.stream =
      receiveLoop (ds.map Except.ok ++ [Except.error e]) ∧
    e ∈ serveErrCh brokers := by
  have key : ∀ (l : List String) (r : List (Except String String)),
      receiveLoop (l.map Except.ok ++ Except.error e :: r) = (l, some e) := by
    intro l
    induction l with
    | nil => intro r; rfl
    | cons d l ih => intro r; simp [receiveLoop, ih r]
  have h1 : receiveLoop b.stream = (ds, some e) := by
    rw [hs]; exact key ds rest
  refine ⟨h1, ?_, ?_⟩
  · rw [h1, key ds []]
  · unfold serveErrCh Serve
    rw [List.mem_filterMap]
    refine ⟨(ds, some e), ?_, rfl⟩
    rw [List.mem_map]
    exact ⟨b, hb, h1⟩

/-- Witness for C9 at a concrete broker stream: one good message, then a
terminal `boom`; the loop queues the one message, pushes `boom` and never
reads the rest of the stream. -/
theorem serve_broker_error_pushed_and_loop_exits_witness :
    (bRun ∈ [bRun] ∧
      bRun.stream = (["d1"] : List String).map Except.ok ++
        Except.error "boom" :: [Except.ok "late"]) ∧
    (receiveLoop bRun.stream = (["d1"], some "boom") ∧
      receiveLoop bRun.stream =
        receiveLoop ((["d1"] : List String).map Except.ok ++
          [Except.error "boom"]) ∧
      "boom" ∈ serveErrCh [bRun]) :=
  ⟨⟨by simp, rfl⟩,
    serve_broker_error_pushed_and_loop_exits [bRun] bRun ["d1"] "boom"
      [Except.ok "late"] (by simp) rfl⟩

/-- Claim C10: starting from a fresh plugin (counter 0), after `k` calls
of `Stop` a request on the configured path is rejected by the stopped
gate exactly when `k = 1` (the gate tests the counter for equality with
1), so a second `Stop` makes the middleware serve requests again. -/
theorem stopped_gate_rejects_iff_one_stop
    (k : Nat) (s : PluginState) (inp : MwInput)
    (hs0 : s.stopped = 0) (hk : k < 2 ^ 64)
    (hpath : inp.path = inp.configPath)
    (hstop : inp.stopped = (stopsFrom k s).stopped) :
    Middleware inp = [MwEvent.stoppedReject] ↔ k = 1 := by
  have h1 : (stopsFrom k s).stopped = k := by
    rw [stopsFrom_stopped k s (by rw [hs0]; norm_num), hs0, Nat.zero_add,
      Nat.mod_eq_of_lt hk]
  rw [middleware_reject_iff inp hpath, hstop, h1]
  simp [stoppedGate]

/-- Witness for C10 at `k = 1`: one `Stop` from a fresh state makes the
gate reject a request on the configured path. -/
theorem stopped_gate_rejects_iff_one_stop_witness :
    (s0.stopped = 0 ∧ 1 < 2 ^ 64 ∧ gateReq.path = gateReq.configPath ∧
      gateReq.stopped = (stopsFrom 1 s0).stopped) ∧
    (Middleware gateReq = [MwEvent.stoppedReject] ↔ 1 = 1) :=
  ⟨⟨rfl, by norm_num, rfl, by decide⟩,
    stopped_gate_rejects_iff_one_stop 1 s0 gateReq rfl (by norm_num) rfl
      (by decide)⟩
